import Mathlib

/-!
Verification development for the easy-crypto trade-scenario core.

This file embeds the two algorithmic components of the repository —
the Classical Scenario Engine (src/strategies/classic_new.py) and the
SMC Pattern Analyzer (src/strategies/smc_new.py) — as executable Lean
definitions and proves the specified properties about them.

Modelling conventions:
- Python floats are modelled as rationals (ℚ); arithmetic is exact.
  Decimal literals such as 0.62 or 1e-9 denote the exact decimal value.
- Optional/None-able values are `Option ℚ`; Python truthiness of a
  numeric value (None and 0.0 are falsy) is the `truthy` predicate.
- Code paths that raise (round(None, 3) raising TypeError,
  None.items() raising AttributeError, indexing an empty series) are
  modelled with `Except Unit`, the error standing for the exception.
- Polars DataFrames of records are modelled as Lists of structures in
  the construction order of the source (which is already idx-sorted
  where the source sorts).
- Diagnostic string payloads that no property reads (the `rationale`
  mapping of a scenario, the `details` dict of a Decision) are omitted;
  the `reason` tag list of a Decision is kept.
-/

deriving instance DecidableEq for Except

set_option maxRecDepth 4000

namespace EasyCrypto

/-- Python truthiness of an optional numeric value: None and 0 are falsy. -/
def truthy (o : Option ℚ) : Bool := decide (o.getD 0 ≠ 0)

/-- Model of the Python `x or y` fallback chain on optional numerics:
`x` when truthy, otherwise `y` unchanged. -/
def pyOr (a b : Option ℚ) : Option ℚ := if truthy a then a else b

/-! ## Classical Scenario Engine (src/strategies/classic_new.py) -/

/-- The three risk-multiple take-profit levels of a scenario. -/
structure Targets where
  tp1 : ℚ
  tp2 : ℚ
  tp3 : ℚ
deriving Repr, DecidableEq

/-- ClassicalAnalyst._calc_targets_from_r: given entry and stop, the three
targets are entry plus-or-minus 1,2,3 times the risk; None when the risk
is zero. -/
def calc_targets_from_r (entry stop : ℚ) (long : Bool) : Option Targets :=
  let risk := |entry - stop|
  if risk ≤ 0 then none
  else if long then
    some { tp1 := entry + 1 * risk, tp2 := entry + 2 * risk, tp3 := entry + 3 * risk }
  else
    some { tp1 := entry - 1 * risk, tp2 := entry - 2 * risk, tp3 := entry - 3 * risk }

/-- One trade scenario (bias, entry, stop_loss, targets); the free-text
`rationale` mapping of the source is omitted as pure diagnostics. -/
structure Scenario where
  bias : String
  entry : ℚ
  stop_loss : ℚ
  targets : Option Targets
deriving Repr, DecidableEq

/-- The four scenarios built by one analyze call. -/
structure Scenarios where
  spot_long : Scenario
  spot_short : Scenario
  futures_long : Scenario
  futures_short : Scenario
deriving Repr, DecidableEq

/-- Result of ClassicalAnalyst.analyze: `scenarios = none` is the
sentinel "unknown trend, no scenarios" result (the source's empty
scenarios dict); the `market`/`indicators_pretty` echo fields are
omitted as pure diagnostics. -/
structure ClassicResult where
  coin : String
  trend : String
  scenarios : Option Scenarios
deriving Repr, DecidableEq

/-- Numeric fields of the coincodex `market_data` dict (already parsed;
absent keys are `none`). -/
structure MarketData where
  current_price : Option ℚ
  sma50 : Option ℚ
  sma200 : Option ℚ
  rsi_14 : Option ℚ
  volatility : Option ℚ
deriving Repr, DecidableEq

/-- Numeric values recoverable from the TradingView `tv_pretty` dict via
safe_get_by_substring followed by parse_money / parse_percent / regex
extraction; `none` when the key is absent or unparseable. -/
structure TvData where
  price : Option ℚ
  sma50 : Option ℚ
  sma200 : Option ℚ
  rsi : Option ℚ
  macd : Option ℚ
  volatility : Option ℚ
deriving Repr, DecidableEq

/-- Spot long scenario construction (lines 103-130 of classic_new.py).
`off` is `sl_distance + sl_buffer`. -/
def spotLong (trend : String) (p : ℚ) (sma50 rsi macd : Option ℚ) (off : ℚ) : Scenario :=
  if trend = "bullish" then
    let momentum_ok :=
      (truthy macd && decide (0 < macd.getD 0)) ||
      (truthy rsi && decide (30 < rsi.getD 0) && decide (rsi.getD 0 < 70))
    let entry := if momentum_ok || !truthy sma50 then p else sma50.getD 0
    let stop := max 0 (entry - off)
    { bias := trend, entry := entry, stop_loss := stop
      targets := calc_targets_from_r entry stop true }
  else
    let entry := if truthy sma50 then sma50.getD 0 else p * 0.99
    let stop := max 0 (entry - off)
    { bias := trend, entry := entry, stop_loss := stop
      targets := calc_targets_from_r entry stop true }

/-- Spot short scenario construction (lines 132-159 of classic_new.py). -/
def spotShort (trend : String) (p : ℚ) (sma50 rsi macd : Option ℚ) (off : ℚ) : Scenario :=
  if trend = "bearish" then
    let momentum_ok :=
      (truthy macd && decide (macd.getD 0 < 0)) ||
      (truthy rsi && decide (30 < rsi.getD 0) && decide (rsi.getD 0 < 70))
    let entry := if momentum_ok || !truthy sma50 then p else sma50.getD 0
    let stop := entry + off
    { bias := trend, entry := entry, stop_loss := stop
      targets := calc_targets_from_r entry stop false }
  else
    let entry := if truthy sma50 then sma50.getD 0 else p * 1.01
    let stop := entry + off
    { bias := trend, entry := entry, stop_loss := stop
      targets := calc_targets_from_r entry stop false }

/-- The source's `v if not v else v * 1.5` applied to each futures target
value (0.0 is falsy and kept as is). -/
def py15 (v : ℚ) : ℚ := if v = 0 then v else v * 1.5

/-- adjust_for_futures (lines 167-182 of classic_new.py): risk is 0.7
times the spot risk, the stop is recomputed at that distance from entry,
the targets are re-derived from the new stop and each resulting target
value is multiplied by 1.5. When `_calc_targets_from_r` returns None the
source calls `.items()` on None and raises AttributeError, modelled as
the error case. -/
def adjust_for_futures (sc : Scenario) (long : Bool) : Except Unit Scenario :=
  let risk := |sc.entry - sc.stop_loss| * 0.7
  let stop := if long then sc.entry - risk else sc.entry + risk
  match calc_targets_from_r sc.entry stop long with
  | none => .error ()
  | some t =>
      .ok { sc with
            stop_loss := stop
            targets := some { tp1 := py15 t.tp1, tp2 := py15 t.tp2, tp3 := py15 t.tp3 } }

/-- The sentinel result returned when no current price is available. -/
def sentinel (cid : String) : ClassicResult :=
  { coin := cid, trend := "unknown", scenarios := none }

/-- The volatility fallback chain (lines 80-85 of classic_new.py): a
market value, else the parsed TradingView percent when truthy, else the
default 0.03. A market value of 0.0 is kept here and replaced only at
the stop-distance computation (line 100). -/
def mergedVolatility (m : MarketData) (tv : TvData) : ℚ :=
  match m.volatility with
  | some v => v
  | none =>
    match tv.volatility with
    | some w => if w ≠ 0 then w else 0.03
    | none => 0.03

/-- Trend determination (lines 87-93 of classic_new.py): bullish or
bearish only when both moving averages are truthy. -/
def trendOfSmas (sma50 sma200 : Option ℚ) : String :=
  if truthy sma50 && truthy sma200 then
    if sma200.getD 0 < sma50.getD 0 then "bullish"
    else if sma50.getD 0 < sma200.getD 0 then "bearish"
    else "neutral"
  else "neutral"

/-- sl_distance + sl_buffer (lines 100-101 of classic_new.py): the stop
offset is 1.5 times the volatility-scaled price, with a falsy volatility
replaced by the 0.03 default at this point. -/
def slOffset (volatility p : ℚ) : ℚ :=
  let sl_distance := (if volatility = 0 then (0.03 : ℚ) else volatility) * p
  let sl_buffer := 0.5 * sl_distance
  sl_distance + sl_buffer

/-- ClassicalAnalyst.analyze (lines 35-195 of classic_new.py), after the
string-parsing normalization: inputs are the already-parsed numeric
values from the two providers, merged with the source's `or` fallbacks. -/
def analyze (cid : String) (m : MarketData) (tv : TvData) : Except Unit ClassicResult :=
  let cp := pyOr m.current_price tv.price
  let sma50 := pyOr m.sma50 tv.sma50
  let sma200 := pyOr m.sma200 tv.sma200
  let rsi := pyOr m.rsi_14 tv.rsi
  let macd := tv.macd
  let trend := trendOfSmas sma50 sma200
  if truthy cp = false then .ok (sentinel cid)
  else
    let p := cp.getD 0
    let off := slOffset (mergedVolatility m tv) p
    let sl := spotLong trend p sma50 rsi macd off
    let ss := spotShort trend p sma50 rsi macd off
    match adjust_for_futures sl true, adjust_for_futures ss false with
    | .ok fl, .ok fs =>
        .ok { coin := cid, trend := trend
              scenarios := some { spot_long := sl, spot_short := ss
                                  futures_long := fl, futures_short := fs } }
    | _, _ => .error ()

/-- End-to-end snapshot of the spec's worked example: market data with
current_price 100, sma50 105, sma200 95, rsi 50, volatility 0.05. -/
def mE2E : MarketData :=
  { current_price := some 100, sma50 := some 105, sma200 := some 95
    rsi_14 := some 50, volatility := some 0.05 }

/-- TradingView side of the worked example: only a positive MACD. -/
def tvE2E : TvData :=
  { price := none, sma50 := none, sma200 := none, rsi := none
    macd := some 1, volatility := none }



/-! ## SMC Pattern Analyzer (src/strategies/smc_new.py) -/

/-- One OHLC candle. The `open` price is called `opn` because `open` is a
reserved word; the analyzer never reads it. -/
structure Candle where
  opn : ℚ
  high : ℚ
  low : ℚ
  close : ℚ
deriving Repr, DecidableEq

/-- SMCAnalyzer constructor configuration. -/
structure SMCConfig where
  swing_length : ℕ
  fvg_max_dist_pct : ℚ
  liq_range_pct : ℚ
deriving Repr, DecidableEq

/-- Default analyzer configuration (swing_length 10, fvg 0.03, liq 0.01). -/
def defaultCfg : SMCConfig :=
  { swing_length := 10, fvg_max_dist_pct := 0.03, liq_range_pct := 0.01 }

/-- One row of the swings frame: idx, type ("high" or "low"), price. -/
structure SwingRec where
  idx : ℕ
  type : String
  price : ℚ
deriving Repr, DecidableEq

/-- One row of the FVG frame. -/
structure FvgRec where
  start_idx : ℕ
  end_idx : ℕ
  type : String
  low : ℚ
  high : ℚ
deriving Repr, DecidableEq

/-- One row of the BOS/CHOCH events frame; CHOCH events carry no ref_idx. -/
structure BosRec where
  idx : ℕ
  type : String
  price : ℚ
  ref_idx : Option ℕ
deriving Repr, DecidableEq

/-- One liquidity cluster. `members` records the source's internal list of
positions into the swings list from which the mean/size/members_idx/types
columns are projected (lines 174-188 of smc_new.py). -/
structure LiqCluster where
  mean_price : ℚ
  size : ℕ
  members_idx : List ℕ
  types : List String
  members : List ℕ
deriving Repr, DecidableEq

/-- Python max of a nonempty list (0 for the empty list, which the source
never reaches). -/
def maxD : List ℚ → ℚ
  | [] => 0
  | x :: xs => xs.foldl max x

/-- Python min of a nonempty list (0 for the empty list, which the source
never reaches). -/
def minD : List ℚ → ℚ
  | [] => 0
  | x :: xs => xs.foldl min x

/-- The `highs[left:right]` window maximum used by detect_swings, with
left = i - L and right = i + L + 1. -/
def windowHigh (highs : List ℚ) (L i : ℕ) : ℚ :=
  maxD ((highs.drop (i - L)).take (2 * L + 1))

/-- The `lows[left:right]` window minimum used by detect_swings. -/
def windowLow (lows : List ℚ) (L i : ℕ) : ℚ :=
  minD ((lows.drop (i - L)).take (2 * L + 1))

/-- SMCAnalyzer.detect_swings (lines 41-65 of smc_new.py): index i is
skipped when i - L < 0 or i + L ≥ n; otherwise a high row is emitted when
highs[i] equals the window maximum and a low row when lows[i] equals the
window minimum. The result is already sorted by idx by construction. -/
def detect_swings (L : ℕ) (ohlc : List Candle) : List SwingRec :=
  let highs := ohlc.map (·.high)
  let lows := ohlc.map (·.low)
  let n := ohlc.length
  (List.range n).flatMap (fun i =>
    if L ≤ i ∧ i + L < n then
      (if highs.getD i 0 = windowHigh highs L i then
        [{ idx := i, type := "high", price := highs.getD i 0 }] else []) ++
      (if lows.getD i 0 = windowLow lows L i then
        [{ idx := i, type := "low", price := lows.getD i 0 }] else [])
    else [])

/-- SMCAnalyzer.detect_fvg (lines 70-92 of smc_new.py): 3-candle gaps;
bull when candle1.high < candle3.low, bear when candle1.low > candle3.high.
Sorted by start_idx by construction. -/
def detect_fvg (ohlc : List Candle) : List FvgRec :=
  let highs := ohlc.map (·.high)
  let lows := ohlc.map (·.low)
  (List.range (ohlc.length - 2)).flatMap (fun i =>
    let c1h := highs.getD i 0
    let c1l := lows.getD i 0
    let c3h := highs.getD (i + 2) 0
    let c3l := lows.getD (i + 2) 0
    (if c1h < c3l then
      [{ start_idx := i, end_idx := i + 2, type := "bull", low := c1h, high := c3l }] else []) ++
    (if c1l > c3h then
      [{ start_idx := i, end_idx := i + 2, type := "bear", low := c3h, high := c1l }] else []))

/-- Python max(..., key=idx) over swing rows: keeps the first row with the
greatest idx (none for an empty list). -/
def maxByIdx : List SwingRec → Option SwingRec
  | [] => none
  | x :: xs => some (xs.foldl (fun a s => if s.idx > a.idx then s else a) x)

/-- The naive two-point trend of the source's `simple_trend`: None for
fewer than two values, else "up" when the last value exceeds the one
before it, otherwise "down". -/
def simple_trend (vals : List ℚ) : Option String :=
  if vals.length < 2 then none
  else some (if (vals.getLastD 0) > (vals.dropLast.getLastD 0) then "up" else "down")

/-- SMCAnalyzer.detect_bos_choch (lines 97-152 of smc_new.py). BOS events
scan the last 30 candles against the latest swing high/low; CHOCH events
compare the trends of the highs and lows among the last 6 swings. The
construction order is already idx-ascending. -/
def detect_bos_choch (ohlc : List Candle) (swings : List SwingRec) : List BosRec :=
  if swings = [] then []
  else
    let closes := ohlc.map (·.close)
    let n := closes.length
    let latest_high := maxByIdx (swings.filter (fun s => s.type = "high"))
    let latest_low := maxByIdx (swings.filter (fun s => s.type = "low"))
    let start := n - min 30 n
    let bosEvents := ((List.range n).drop start).flatMap (fun i =>
      let close := closes.getD i 0
      (match latest_high with
       | some hrec =>
         if hrec.idx < i ∧ hrec.price * 1.001 < close then
           [{ idx := i, type := "BOS_high", price := close, ref_idx := some hrec.idx }]
         else []
       | none => []) ++
      (match latest_low with
       | some lrec =>
         if lrec.idx < i ∧ close < lrec.price * 0.999 then
           [{ idx := i, type := "BOS_low", price := close, ref_idx := some lrec.idx }]
         else []
       | none => []))
    let seq_short := swings.drop (swings.length - 6)
    let highs_vals := (seq_short.filter (fun s => s.type = "high")).map (·.price)
    let lows_vals := (seq_short.filter (fun s => s.type = "low")).map (·.price)
    let htrend := simple_trend highs_vals
    let ltrend := simple_trend lows_vals
    let downTag : String := "down"
    let upTag : String := "up"
    let chochEvents :=
      (if htrend = some downTag ∧ ltrend = some downTag then
        [{ idx := n - 1, type := "CHOCH_bear", price := closes.getLastD 0, ref_idx := none }]
       else []) ++
      (if htrend = some upTag ∧ ltrend = some upTag then
        [{ idx := n - 1, type := "CHOCH_bull", price := closes.getLastD 0, ref_idx := none }]
       else [])
    bosEvents ++ chochEvents

/-- One pass of the outer clustering loop of detect_liquidity_clusters
(lines 171-188 of smc_new.py): state is (used positions, member lists so
far). A seed i not yet used collects every later unused position whose
price is within rp relative distance of the seed price. Within a single
inner pass each j is visited once, so the inner loop is a filter against
the used-set from before the pass. -/
def clusterStep (prices : List ℚ) (rp : ℚ) (st : List ℕ × List (List ℕ)) (i : ℕ) :
    List ℕ × List (List ℕ) :=
  if i ∈ st.1 then st
  else
    let p := prices.getD i 0
    let mem := i :: (List.range prices.length).filter
      (fun j => i < j ∧ j ∉ st.1 ∧ |prices.getD j 0 - p| / p ≤ rp)
    (st.1 ++ mem, st.2 ++ [mem])

/-- The member lists produced by the greedy clustering loop. -/
def clusterMembersList (prices : List ℚ) (rp : ℚ) : List (List ℕ) :=
  ((List.range prices.length).foldl (clusterStep prices rp) ([], [])).2

/-- A placeholder swing record for total list indexing. -/
def dfltSwing : SwingRec := { idx := 0, type := "", price := 0 }

/-- Projection of one member-position list to the cluster record columns
(lines 182-188 of smc_new.py). -/
def mkCluster (swings : List SwingRec) (mem : List ℕ) : LiqCluster :=
  let rows := mem.map (fun k => swings.getD k dfltSwing)
  { mean_price := (rows.map (·.price)).sum / rows.length
    size := rows.length
    members_idx := rows.map (·.idx)
    types := rows.map (·.type)
    members := mem }

/-- SMCAnalyzer.detect_liquidity_clusters (lines 157-192 of smc_new.py):
greedy clustering of swing prices by relative distance to the seed price,
then descending sort by member count. Python divides by the seed price,
which is defined for the positive prices of the data model. -/
def detect_liquidity_clusters (cfg : SMCConfig) (swings : List SwingRec)
    (range_percent : Option ℚ) : List LiqCluster :=
  if swings = [] then []
  else
    let rp := range_percent.getD cfg.liq_range_pct
    let prices := swings.map (·.price)
    ((clusterMembersList prices rp).map (mkCluster swings)).mergeSort
      (fun a b => b.size ≤ a.size)

/-- The used/clusters invariant of the greedy clustering fold: the used
list is exactly the concatenation of the member lists, it has no
duplicates, and every used position is a valid index. -/
def ClusterInv (n : ℕ) (st : List ℕ × List (List ℕ)) : Prop :=
  st.1 = st.2.flatten ∧ st.1.Nodup ∧ ∀ k ∈ st.1, k < n

/-- Python min(range(len), key=dists.__getitem__): the first index with
the strictly smallest value. -/
def argminIdx (dists : List ℚ) : ℕ :=
  (List.range dists.length).foldl
    (fun best j => if dists.getD j 0 < dists.getD best 0 then j else best) 0

/-- SMCAnalyzer._nearest_fvg (lines 198-207 of smc_new.py): nearest gap by
relative distance of the gap midpoint from price, accepted only within
max_dist_pct. -/
def nearestFvg (price : ℚ) (fvg : List FvgRec) (max_dist_pct : ℚ) :
    Option (FvgRec × ℚ) :=
  if fvg = [] then none
  else
    let centers := fvg.map (fun r => (r.low + r.high) / 2)
    let dists := centers.map (fun c => |c - price| / c)
    let mi := argminIdx dists
    let dfltF : FvgRec := { start_idx := 0, end_idx := 0, type := "", low := 0, high := 0 }
    if dists.getD mi 0 ≤ max_dist_pct then some (fvg.getD mi dfltF, dists.getD mi 0)
    else none

/-- SMCAnalyzer._nearest_liquidity (lines 210-218 of smc_new.py). -/
def nearestLiquidity (price : ℚ) (lc : List LiqCluster) (max_dist_pct : ℚ) :
    Option (LiqCluster × ℚ) :=
  if lc = [] then none
  else
    let dists := lc.map (fun r => |r.mean_price - price| / r.mean_price)
    let mi := argminIdx dists
    let dfltC : LiqCluster :=
      { mean_price := 0, size := 0, members_idx := [], types := [], members := [] }
    if dists.getD mi 0 ≤ max_dist_pct then some (lc.getD mi dfltC, dists.getD mi 0)
    else none

/-- Bias determination from the last swings (lines 249-258 of smc_new.py):
requires at least 4 swings, compares the last two of the last three highs
and lows; both rising gives bull, both falling gives bear. -/
def biasOf (swings : List SwingRec) : String :=
  if 4 ≤ swings.length then
    let highsAll := (swings.filter (fun s => s.type = "high")).map (·.price)
    let lowsAll := (swings.filter (fun s => s.type = "low")).map (·.price)
    let highs := highsAll.drop (highsAll.length - 3)
    let lows := lowsAll.drop (lowsAll.length - 3)
    if 2 ≤ highs.length ∧ 2 ≤ lows.length then
      let hLast := highs.getLastD 0
      let hPrev := highs.dropLast.getLastD 0
      let lLast := lows.getLastD 0
      let lPrev := lows.dropLast.getLastD 0
      let b := if hPrev < hLast ∧ lPrev < lLast then "bull" else "neutral"
      if hLast < hPrev ∧ lLast < lPrev then "bear" else b
    else "neutral"
  else "neutral"

/-- Action thresholds (lines 341-346 of smc_new.py). -/
def actionOf (confidence : ℚ) (bias : String) (hasChochBull hasChochBear : Bool) : String :=
  if 0.62 ≤ confidence then
    if bias = "bull" ∨ bias = "neutral" ∨ hasChochBull then "buy" else "sell"
  else if confidence ≤ 0.38 then
    if bias = "bear" ∨ bias = "neutral" ∨ hasChochBear then "sell" else "buy"
  else "hold"

/-- Structure-bias contribution to the score (lines 276-283 of
smc_new.py), starting from the 0.5 base. -/
def scoreBias (bias : String) : ℚ × List String :=
  let s0 : ℚ := 0.5
  if bias = "bull" then (s0 + 0.15, ["structure_bullish"])
  else if bias = "bear" then (s0 - 0.15, ["structure_bearish"])
  else (s0, ["structure_neutral"])

/-- CHOCH/BOS event contributions (lines 285-296 of smc_new.py). -/
def scoreEvents (st : ℚ × List String) (hcb hcbear hbb hbbear : Bool) : ℚ × List String :=
  let st2 := if hcb then (st.1 + 0.25, st.2 ++ ["recent_CHOCH_bull"]) else st
  let st3 := if hcbear then (st2.1 - 0.25, st2.2 ++ ["recent_CHOCH_bear"]) else st2
  let st4 := if hbb then (st3.1 + 0.12, st3.2 ++ ["recent_BOS_bull"]) else st3
  if hbbear then (st4.1 - 0.12, st4.2 ++ ["recent_BOS_bear"]) else st4

/-- Nearest-FVG contribution (lines 298-305 of smc_new.py). -/
def scoreFvg (st : ℚ × List String) (bias : String) (ng : Option (FvgRec × ℚ)) :
    ℚ × List String :=
  match ng with
  | none => st
  | some (g, d) =>
    if (g.type = "bull" ∧ bias = "bull") ∨ (g.type = "bear" ∧ bias = "bear")
        ∨ bias = "neutral" then
      (st.1 + max (0.08 : ℚ) (0.12 - d), st.2 ++ ["near_fvg_" ++ g.type])
    else
      (st.1 - 0.05, st.2 ++ ["near_fvg_misaligned_" ++ g.type])

/-- Nearest-liquidity contribution (lines 307-324 of smc_new.py). -/
def scoreLiq (st : ℚ × List String) (bias : String) (nl : Option (LiqCluster × ℚ)) :
    ℚ × List String :=
  match nl with
  | none => st
  | some (c, _) =>
    let hTag : String := "high"
    let lTag : String := "low"
    let high_count := c.types.count hTag
    let low_count := c.types.count lTag
    if low_count < high_count then
      if bias = "bull" then (st.1 - 0.08, st.2 ++ ["overhead_liquidity_nearby"])
      else (st.1 + 0.03, st.2 ++ ["overhead_liquidity_target"])
    else if high_count < low_count then
      if bias = "bear" then (st.1 + 0.03, st.2 ++ ["support_liquidity_nearby_bear"])
      else (st.1 + 0.05, st.2 ++ ["support_liquidity_nearby"])
    else st

/-- Proximity-to-last-swing contribution (lines 327-335 of smc_new.py). -/
def scoreSwingProx (st : ℚ × List String) (bias : String)
    (swings : List SwingRec) (last_close : ℚ) : ℚ × List String :=
  if swings = [] then st
  else
    let dfltS : SwingRec := { idx := 0, type := "", price := 0 }
    let last_swing := swings.getLastD dfltS
    let dist_swing := |last_close - last_swing.price| / last_swing.price
    if dist_swing ≤ 0.015 then
      let r := st.2 ++ ["price_near_last_swing"]
      if (last_swing.type = "low" ∧ bias = "bull")
          ∨ (last_swing.type = "high" ∧ bias = "bear") then
        (st.1 + 0.03, r)
      else (st.1 - 0.03, r)
    else st

/-- The scoring accumulator (lines 272-335 of smc_new.py), returning the
raw score and the ordered reason tags. -/
def scoreOf (bias : String) (hcb hcbear hbb hbbear : Bool)
    (ng : Option (FvgRec × ℚ)) (nl : Option (LiqCluster × ℚ))
    (swings : List SwingRec) (last_close : ℚ) : ℚ × List String :=
  scoreSwingProx
    (scoreLiq (scoreFvg (scoreEvents (scoreBias bias) hcb hcbear hbb hbbear) bias ng) bias nl)
    bias swings last_close

/-- Entry/stop/targets generation (lines 349-385 of smc_new.py),
depending on the action and the alignment of the nearest gap. -/
def entryStopTargets (action : String) (ng : Option (FvgRec × ℚ))
    (swings : List SwingRec) (last_close : ℚ) : Option ℚ × Option ℚ × List ℚ :=
  let dfltS : SwingRec := { idx := 0, type := "", price := 0 }
  if action = "buy" then
    let gapBranch :=
      match ng with
      | some (g, _) => if g.type = "bull" then some g else none
      | none => none
    match gapBranch with
    | some g =>
      let entry := max g.low last_close
      let stop := g.low - |g.high - g.low| * 0.6
      (some entry, some stop, [entry + (entry - stop) * 1.5, entry + (entry - stop) * 3.0])
    | none =>
      let lows := swings.filter (fun s => s.type = "low")
      if lows ≠ [] then
        let last_low := (lows.getLastD dfltS).price
        let entry := max last_low last_close
        let stop := last_low - (|entry - last_low| * 0.6 + 1e-9)
        (some entry, some stop, [entry + (entry - stop) * 1.2, entry + (entry - stop) * 2.0])
      else
        (some last_close, some (last_close * 0.98), [last_close * 1.02, last_close * 1.04])
  else if action = "sell" then
    let gapBranch :=
      match ng with
      | some (g, _) => if g.type = "bear" then some g else none
      | none => none
    match gapBranch with
    | some g =>
      let entry := min g.high last_close
      let stop := g.high + |g.high - g.low| * 0.6
      (some entry, some stop, [entry - (stop - entry) * 1.5, entry - (stop - entry) * 3.0])
    | none =>
      let highs := swings.filter (fun s => s.type = "high")
      if highs ≠ [] then
        let last_high := (highs.getLastD dfltS).price
        let entry := min last_high last_close
        let stop := last_high + (|entry - last_high| * 0.6 + 1e-9)
        (some entry, some stop, [entry - (stop - entry) * 1.2, entry - (stop - entry) * 2.0])
      else
        (some last_close, some (last_close * 1.02), [last_close * 0.98, last_close * 0.96])
  else (none, none, [])

/-- All intermediate results of one analyze_trade call, before the final
Decision is assembled (and before the rounding step that raises on a
hold action). -/
structure CoreOut where
  swings : List SwingRec
  fvg : List FvgRec
  bos : List BosRec
  liq : List LiqCluster
  bias : String
  recent_events : List String
  hasChochBull : Bool
  hasChochBear : Bool
  hasBosBull : Bool
  hasBosBear : Bool
  score_raw : ℚ
  confidence : ℚ
  action : String
  entry : Option ℚ
  stop : Option ℚ
  targets : List ℚ
  suggested_risk_pct : ℚ
  reasons : List String
deriving Repr, DecidableEq

/-- The computation of analyze_trade (lines 223-401 of smc_new.py) up to
and including the entry/stop/targets generation, with every indicator
frame computed from the series (the source computes exactly these when
the overrides are None). Total on any series; the source's indexing of
the last close constrains callers to nonempty series, which
`analyze_trade` checks. -/
def analyzeCore (cfg : SMCConfig) (ohlc : List Candle) : CoreOut :=
  let swings := detect_swings cfg.swing_length ohlc
  let fvg := detect_fvg ohlc
  let bos := detect_bos_choch ohlc swings
  let liq := detect_liquidity_clusters cfg swings (some cfg.liq_range_pct)
  let n := ohlc.length
  let dfltC : Candle := { opn := 0, high := 0, low := 0, close := 0 }
  let last_close := (ohlc.getLastD dfltC).close
  let bias := biasOf swings
  let recent_threshold := n - 30
  let recent_events := (bos.filter (fun e => recent_threshold ≤ e.idx)).map (·.type)
  let bosHighTag : String := "BOS_high"
  let bosLowTag : String := "BOS_low"
  let chochBullTag : String := "CHOCH_bull"
  let chochBearTag : String := "CHOCH_bear"
  let hbb := recent_events.contains bosHighTag
  let hbbear := recent_events.contains bosLowTag
  let hcb := recent_events.contains chochBullTag
  let hcbear := recent_events.contains chochBearTag
  let ng := nearestFvg last_close fvg cfg.fvg_max_dist_pct
  let nl := nearestLiquidity last_close liq (cfg.liq_range_pct * 3)
  let sc := scoreOf bias hcb hcbear hbb hbbear ng nl swings last_close
  let confidence := max 0 (min 1 sc.1)
  let action := actionOf confidence bias hcb hcbear
  let est := entryStopTargets action ng swings last_close
  { swings := swings, fvg := fvg, bos := bos, liq := liq, bias := bias
    recent_events := recent_events
    hasChochBull := hcb, hasChochBear := hcbear, hasBosBull := hbb, hasBosBear := hbbear
    score_raw := sc.1, confidence := confidence, action := action
    entry := est.1, stop := est.2.1, targets := est.2.2
    suggested_risk_pct := max (0.25 : ℚ) (1.5 * confidence)
    reasons := sc.2 }

/-- The final Decision record (details dict omitted as diagnostics). -/
structure Decision where
  action : String
  reason : String
  confidence : ℚ
  entry : Option ℚ
  stop : Option ℚ
  targets : List ℚ
  suggested_risk_pct : ℚ
deriving Repr, DecidableEq

/-- Python round(x, 3) modelled as rounding x*1000 to an integer (the
float round-half-to-even at exact ties is not distinguished; no property
depends on tie behavior). -/
def round3 (q : ℚ) : ℚ := ((round (q * 1000) : ℤ) : ℚ) / 1000

/-- SMCAnalyzer.analyze_trade. On an empty series the source raises
IndexError on the last close; when the action is "hold" the source
executes round(None, 3) which raises TypeError, so every hold decision
raises. Both exception paths are the error case. -/
def analyze_trade (cfg : SMCConfig) (ohlc : List Candle) : Except Unit Decision :=
  if ohlc = [] then .error ()
  else
    let c := analyzeCore cfg ohlc
    match c.entry, c.stop with
    | some e, some st =>
        let sep : String := "; "
        .ok { action := c.action, reason := String.intercalate sep c.reasons
              confidence := c.confidence
              entry := some (round3 e), stop := some (round3 st)
              targets := c.targets, suggested_risk_pct := c.suggested_risk_pct }
    | _, _ => .error ()

/-! ## Concrete inputs and projections used by the witnesses -/

/-- The trend of an analyze result ("error" on the exception path). -/
def trendOf (e : Except Unit ClassicResult) : String :=
  match e with
  | .ok r => r.trend
  | .error _ => "error"

/-- The scenarios of an analyze result, when present. -/
def scenariosOf (e : Except Unit ClassicResult) : Option Scenarios :=
  match e with
  | .ok r => r.scenarios
  | .error _ => none

/-- A placeholder scenario for total projections. -/
def dfltScenario : Scenario := { bias := "", entry := 0, stop_loss := 0, targets := none }

/-- The futures-long scenario of an analyze result. -/
def futLongOf (e : Except Unit ClassicResult) : Scenario :=
  ((scenariosOf e).map (·.futures_long)).getD dfltScenario

/-- The spot-long scenario of an analyze result. -/
def spotLongOf (e : Except Unit ClassicResult) : Scenario :=
  ((scenariosOf e).map (·.spot_long)).getD dfltScenario

/-- The first take-profit of a target set (0 when absent). -/
def tp1Of (t : Option Targets) : ℚ := (t.map (·.tp1)).getD 0

/-- The confidence carried by a returned Decision (0 on the exception
path). -/
def decisionConfidence (e : Except Unit Decision) : ℚ :=
  match e with
  | .ok d => d.confidence
  | .error _ => 0

/-- Whether the three targets rise strictly (vacuously true when absent):
the monotonicity demanded of a long scenario. -/
def targetsAscending (t : Option Targets) : Bool :=
  match t with
  | none => true
  | some t => decide (t.tp1 < t.tp2) && decide (t.tp2 < t.tp3)

/-- Whether the three targets fall strictly (vacuously true when absent):
the monotonicity demanded of a short scenario. -/
def targetsDescending (t : Option Targets) : Bool :=
  match t with
  | none => true
  | some t => decide (t.tp2 < t.tp1) && decide (t.tp3 < t.tp2)

/-- A market-data record with a positive price whose sma50 is present but
zero: the truthiness counterexample input for the trend rule. -/
def mZeroSma : MarketData :=
  { current_price := some 1, sma50 := some 0, sma200 := some 5
    rsi_14 := none, volatility := none }

/-- A TradingView record with every value absent. -/
def tvEmpty : TvData :=
  { price := none, sma50 := none, sma200 := none, rsi := none
    macd := none, volatility := none }

/-- A market-data record with no price anywhere. -/
def mNoPrice : MarketData :=
  { current_price := none, sma50 := some 105, sma200 := some 95
    rsi_14 := some 50, volatility := some 0.05 }

/-- A flat two-candle series: too short for any indicator, every signal
neutral, confidence 0.5, action hold. -/
def flat2 : List Candle :=
  [{ opn := 1, high := 1, low := 1, close := 1 },
   { opn := 1, high := 1, low := 1, close := 1 }]

/-- Analyzer configuration with swing_length 1 for the small concrete
series of the witnesses. -/
def cfg1 : SMCConfig := { swing_length := 1, fvg_max_dist_pct := 0.03, liq_range_pct := 0.01 }

/-- A candle centred between its high and low. -/
def mkC (h l : ℚ) : Candle := { opn := (h + l) / 2, high := h, low := l, close := (h + l) / 2 }

/-- A rising zigzag of nine candles: with swing_length 1 it produces
seven alternating swings, bull bias and a CHOCH_bull, so the analyzer
buys with confidence 0.82. -/
def zig9 : List Candle :=
  [mkC 15 10, mkC 14 9, mkC 16 11, mkC 15 10, mkC 17 12,
   mkC 16 11, mkC 18 13, mkC 17 12, mkC 19 14]

/-- A four-candle series around a bullish fair-value gap whose midpoint
equals the last close: too short for swings, the aligned-gap bonus alone
lifts the confidence to exactly 0.62 and the buy uses the gap branch. -/
def gap4 : List Candle :=
  [{ opn := 9.75, high := 10, low := 9.5, close := 9.75 },
   { opn := 10, high := 11, low := 9.5, close := 10 },
   { opn := 12.5, high := 13, low := 12, close := 12.5 },
   { opn := 11, high := 11.5, low := 10.5, close := 11 }]

/-- The Decision returned on gap4. -/
def dGap : Decision :=
  { action := "buy", reason := "structure_neutral; near_fvg_bull"
    confidence := 0.62, entry := some 11, stop := some 8.8
    targets := [14.3, 17.6], suggested_risk_pct := 0.93 }

/-- A three-swing list: the first two prices are within one percent of
each other, the third is far away. -/
def swings3 : List SwingRec :=
  [{ idx := 1, type := "high", price := 100 },
   { idx := 2, type := "low", price := 100.5 },
   { idx := 3, type := "high", price := 200 }]

/-- The full result of analyze on the worked-example snapshot. -/
def rE2E : ClassicResult :=
  { coin := "bitcoin", trend := "bullish"
    scenarios := some
      { spot_long := { bias := "bullish", entry := 100, stop_loss := 92.5
                       targets := some { tp1 := 107.5, tp2 := 115, tp3 := 122.5 } }
        spot_short := { bias := "bullish", entry := 105, stop_loss := 112.5
                        targets := some { tp1 := 97.5, tp2 := 90, tp3 := 82.5 } }
        futures_long := { bias := "bullish", entry := 100, stop_loss := 94.75
                          targets := some { tp1 := 157.875, tp2 := 165.75, tp3 := 173.625 } }
        futures_short := { bias := "bullish", entry := 105, stop_loss := 110.25
                           targets := some { tp1 := 149.625, tp2 := 141.75, tp3 := 133.875 } } } }

/-- The scenarios of rE2E. -/
def sE2E : Scenarios := rE2E.scenarios.getD
  { spot_long := dfltScenario, spot_short := dfltScenario
    futures_long := dfltScenario, futures_short := dfltScenario }

/-! # Theorems -/

/-! ## Shared helper lemmas -/

theorem truthy_iff (o : Option ℚ) : truthy o = true ↔ o.getD 0 ≠ 0 := by
  simp [truthy]

theorem py15_eq (v : ℚ) : py15 v = v * 1.5 := by
  unfold py15
  split
  · simp_all
  · rfl

theorem abs_nonpos_iff_eq (e st : ℚ) : |e - st| ≤ 0 ↔ e = st := by
  constructor
  · intro h
    have h0 : e - st = 0 := abs_eq_zero.mp (le_antisymm h (abs_nonneg _))
    linarith
  · intro h
    subst h
    simp

theorem calc_targets_eq_none_iff (e st : ℚ) (long : Bool) :
    calc_targets_from_r e st long = none ↔ e = st := by
  simp only [calc_targets_from_r]
  by_cases hle : |e - st| ≤ 0
  · rw [if_pos hle]
    simp [(abs_nonpos_iff_eq e st).mp hle]
  · rw [if_neg hle]
    have hne : ¬ e = st := fun hc => hle ((abs_nonpos_iff_eq e st).mpr hc)
    cases long <;> simp [hne]

theorem calc_targets_some_long (e st : ℚ) (t : Targets)
    (h : calc_targets_from_r e st true = some t) :
    0 < |e - st| ∧ t.tp1 = e + 1 * |e - st| ∧ t.tp2 = e + 2 * |e - st|
      ∧ t.tp3 = e + 3 * |e - st| := by
  simp only [calc_targets_from_r] at h
  by_cases hle : |e - st| ≤ 0
  · rw [if_pos hle] at h
    exact absurd h (by simp)
  · rw [if_neg hle, if_pos trivial, Option.some.injEq] at h
    subst h
    exact ⟨not_le.mp hle, rfl, rfl, rfl⟩

theorem calc_targets_some_short (e st : ℚ) (t : Targets)
    (h : calc_targets_from_r e st false = some t) :
    0 < |e - st| ∧ t.tp1 = e - 1 * |e - st| ∧ t.tp2 = e - 2 * |e - st|
      ∧ t.tp3 = e - 3 * |e - st| := by
  simp only [calc_targets_from_r] at h
  by_cases hle : |e - st| ≤ 0
  · rw [if_pos hle] at h
    exact absurd h (by simp)
  · rw [if_neg hle, if_neg Bool.false_ne_true, Option.some.injEq] at h
    subst h
    exact ⟨not_le.mp hle, rfl, rfl, rfl⟩

theorem abs_sub_stop_long (e r : ℚ) (hr : 0 ≤ r) : |e - (e - r)| = r := by
  rw [sub_sub_cancel, abs_of_nonneg hr]

theorem abs_sub_stop_short (e r : ℚ) (hr : 0 ≤ r) : |e - (e + r)| = r := by
  have : e - (e + r) = -r := by ring
  rw [this, abs_neg, abs_of_nonneg hr]

theorem risk07_nonneg (e st : ℚ) : 0 ≤ |e - st| * 0.7 :=
  mul_nonneg (abs_nonneg _) (by norm_num)

theorem adjust_ok_long (sc sc' : Scenario) (h : adjust_for_futures sc true = .ok sc') :
    sc'.bias = sc.bias ∧ sc'.entry = sc.entry ∧
    sc'.stop_loss = sc.entry - |sc.entry - sc.stop_loss| * 0.7 ∧
    0 < |sc.entry - sc.stop_loss| * 0.7 ∧
    ∃ t, sc'.targets = some t ∧
      t.tp1 = (sc.entry + 1 * (|sc.entry - sc.stop_loss| * 0.7)) * 1.5 ∧
      t.tp2 = (sc.entry + 2 * (|sc.entry - sc.stop_loss| * 0.7)) * 1.5 ∧
      t.tp3 = (sc.entry + 3 * (|sc.entry - sc.stop_loss| * 0.7)) * 1.5 := by
  simp only [adjust_for_futures] at h
  rw [if_pos trivial] at h
  split at h
  · exact absurd h (by simp)
  · rename_i t heq
    simp only [Except.ok.injEq] at h
    subst h
    obtain ⟨hpos, h1, h2, h3⟩ := calc_targets_some_long _ _ _ heq
    rw [abs_sub_stop_long _ _ (risk07_nonneg sc.entry sc.stop_loss)] at h1 h2 h3 hpos
    refine ⟨rfl, rfl, rfl, hpos, _, rfl, ?_, ?_, ?_⟩
    · show py15 t.tp1 = _
      rw [py15_eq, h1]
    · show py15 t.tp2 = _
      rw [py15_eq, h2]
    · show py15 t.tp3 = _
      rw [py15_eq, h3]

theorem adjust_ok_short (sc sc' : Scenario) (h : adjust_for_futures sc false = .ok sc') :
    sc'.bias = sc.bias ∧ sc'.entry = sc.entry ∧
    sc'.stop_loss = sc.entry + |sc.entry - sc.stop_loss| * 0.7 ∧
    0 < |sc.entry - sc.stop_loss| * 0.7 ∧
    ∃ t, sc'.targets = some t ∧
      t.tp1 = (sc.entry - 1 * (|sc.entry - sc.stop_loss| * 0.7)) * 1.5 ∧
      t.tp2 = (sc.entry - 2 * (|sc.entry - sc.stop_loss| * 0.7)) * 1.5 ∧
      t.tp3 = (sc.entry - 3 * (|sc.entry - sc.stop_loss| * 0.7)) * 1.5 := by
  simp only [adjust_for_futures] at h
  rw [if_neg Bool.false_ne_true] at h
  split at h
  · exact absurd h (by simp)
  · rename_i t heq
    simp only [Except.ok.injEq] at h
    subst h
    obtain ⟨hpos, h1, h2, h3⟩ := calc_targets_some_short _ _ _ heq
    rw [abs_sub_stop_short _ _ (risk07_nonneg sc.entry sc.stop_loss)] at h1 h2 h3 hpos
    refine ⟨rfl, rfl, rfl, hpos, _, rfl, ?_, ?_, ?_⟩
    · show py15 t.tp1 = _
      rw [py15_eq, h1]
    · show py15 t.tp2 = _
      rw [py15_eq, h2]
    · show py15 t.tp3 = _
      rw [py15_eq, h3]

theorem spotLong_targets (trend : String) (p : ℚ) (sma50 rsi macd : Option ℚ) (off : ℚ) :
    (spotLong trend p sma50 rsi macd off).targets =
      calc_targets_from_r (spotLong trend p sma50 rsi macd off).entry
        (spotLong trend p sma50 rsi macd off).stop_loss true := by
  unfold spotLong
  split <;> rfl

theorem spotShort_targets (trend : String) (p : ℚ) (sma50 rsi macd : Option ℚ) (off : ℚ) :
    (spotShort trend p sma50 rsi macd off).targets =
      calc_targets_from_r (spotShort trend p sma50 rsi macd off).entry
        (spotShort trend p sma50 rsi macd off).stop_loss false := by
  unfold spotShort
  split <;> rfl

theorem analyze_ok_inv (cid : String) (m : MarketData) (tv : TvData)
    (r : ClassicResult) (s : Scenarios)
    (h : analyze cid m tv = .ok r) (hs : r.scenarios = some s) :
    adjust_for_futures s.spot_long true = .ok s.futures_long ∧
    adjust_for_futures s.spot_short false = .ok s.futures_short ∧
    s.spot_long.targets =
      calc_targets_from_r s.spot_long.entry s.spot_long.stop_loss true ∧
    s.spot_short.targets =
      calc_targets_from_r s.spot_short.entry s.spot_short.stop_loss false := by
  simp only [analyze] at h
  split at h
  · simp only [Except.ok.injEq] at h
    subst h
    simp [sentinel] at hs
  · split at h
    · rename_i fl fs hfl hfs
      simp only [Except.ok.injEq] at h
      subst h
      simp only [ClassicResult.scenarios, Option.some.injEq] at hs
      subst hs
      exact ⟨hfl, hfs, spotLong_targets _ _ _ _ _ _, spotShort_targets _ _ _ _ _ _⟩
    · exact absurd h (by simp)

theorem max_zero_sub_ne (e off : ℚ) (he : e ≠ 0) (hoff : off ≠ 0) :
    e ≠ max 0 (e - off) := by
  rcases le_total (e - off) 0 with h | h
  · rw [max_eq_left h]
    exact he
  · rw [max_eq_right h]
    intro hc
    exact hoff (by linarith)

theorem spotLong_entry_ne_stop (trend : String) (p : ℚ) (sma50 rsi macd : Option ℚ)
    (off : ℚ) (hp : p ≠ 0) (hoff : off ≠ 0) :
    (spotLong trend p sma50 rsi macd off).entry
      ≠ (spotLong trend p sma50 rsi macd off).stop_loss := by
  unfold spotLong
  split
  · dsimp only
    apply max_zero_sub_ne _ _ ?_ hoff
    split
    · exact hp
    · rename_i hcond
      have hs : truthy sma50 = true := by
        rcases Bool.or_eq_false_iff.mp (Bool.not_eq_true _ |>.mp hcond) with ⟨-, hns⟩
        simpa using hns
      exact (truthy_iff _).mp hs
  · dsimp only
    apply max_zero_sub_ne _ _ ?_ hoff
    split
    · rename_i hs
      exact (truthy_iff _).mp hs
    · exact mul_ne_zero hp (by norm_num)

theorem spotShort_entry_ne_stop (trend : String) (p : ℚ) (sma50 rsi macd : Option ℚ)
    (off : ℚ) (hoff : off ≠ 0) :
    (spotShort trend p sma50 rsi macd off).entry
      ≠ (spotShort trend p sma50 rsi macd off).stop_loss := by
  unfold spotShort
  split <;> dsimp only <;> intro hc <;> exact hoff (by linarith)

theorem adjust_isOk (sc : Scenario) (long : Bool) (hne : sc.entry ≠ sc.stop_loss) :
    ∃ sc', adjust_for_futures sc long = .ok sc' := by
  have habs : |sc.entry - sc.stop_loss| * 0.7 ≠ 0 := by
    intro hc
    rcases mul_eq_zero.mp hc with hc | hc
    · exact hne (by linarith [abs_eq_zero.mp hc, sub_eq_zero.mp (abs_eq_zero.mp hc)])
    · norm_num at hc
  simp only [adjust_for_futures]
  cases long
  · rw [if_neg Bool.false_ne_true]
    split
    · rename_i heq
      rw [calc_targets_eq_none_iff] at heq
      exact absurd heq (fun hc => habs (by linarith))
    · exact ⟨_, rfl⟩
  · rw [if_pos (show (true : Bool) = true from rfl)]
    split
    · rename_i heq
      rw [calc_targets_eq_none_iff] at heq
      exact absurd heq (fun hc => habs (by linarith))
    · exact ⟨_, rfl⟩

theorem slOffset_ne_zero (v p : ℚ) (hp : p ≠ 0) : slOffset v p ≠ 0 := by
  unfold slOffset
  have hv : (if v = 0 then (0.03 : ℚ) else v) ≠ 0 := by
    split
    · norm_num
    · assumption
  have hsld : (if v = 0 then (0.03 : ℚ) else v) * p ≠ 0 := mul_ne_zero hv hp
  intro hc
  exact hsld (by linarith)

theorem trendOfSmas_cases (sma50 sma200 : Option ℚ) :
    trendOfSmas sma50 sma200 = "bullish" ∨ trendOfSmas sma50 sma200 = "bearish"
      ∨ trendOfSmas sma50 sma200 = "neutral" := by
  unfold trendOfSmas
  split
  · split
    · exact Or.inl rfl
    · split
      · exact Or.inr (Or.inl rfl)
      · exact Or.inr (Or.inr rfl)
  · exact Or.inr (Or.inr rfl)

theorem trendOfSmas_ne_unknown (sma50 sma200 : Option ℚ) :
    trendOfSmas sma50 sma200 ≠ "unknown" := by
  rcases trendOfSmas_cases sma50 sma200 with h | h | h <;> rw [h] <;> decide

theorem analyze_ok_of_truthy (cid : String) (m : MarketData) (tv : TvData)
    (hcp : truthy (pyOr m.current_price tv.price) = true) :
    ∃ r, analyze cid m tv = Except.ok r
      ∧ r.trend = trendOfSmas (pyOr m.sma50 tv.sma50) (pyOr m.sma200 tv.sma200)
      ∧ r.scenarios.isSome = true := by
  have hp : (pyOr m.current_price tv.price).getD 0 ≠ 0 := (truthy_iff _).mp hcp
  have hoff := slOffset_ne_zero (mergedVolatility m tv) _ hp
  simp only [analyze]
  rw [if_neg (by simp [hcp])]
  obtain ⟨fl, hfl⟩ := adjust_isOk _ true
    (spotLong_entry_ne_stop (trendOfSmas (pyOr m.sma50 tv.sma50) (pyOr m.sma200 tv.sma200))
      _ (pyOr m.sma50 tv.sma50) (pyOr m.rsi_14 tv.rsi) tv.macd _ hp hoff)
  obtain ⟨fs, hfs⟩ := adjust_isOk _ false
    (spotShort_entry_ne_stop (trendOfSmas (pyOr m.sma50 tv.sma50) (pyOr m.sma200 tv.sma200))
      _ (pyOr m.sma50 tv.sma50) (pyOr m.rsi_14 tv.rsi) tv.macd _ hoff)
  rw [hfl, hfs]
  exact ⟨_, rfl, rfl, rfl⟩

theorem trendOfSmas_spec (s50 s200 : Option ℚ) :
    (truthy s50 = true → truthy s200 = true → s200.getD 0 < s50.getD 0 →
      trendOfSmas s50 s200 = "bullish")
    ∧ (truthy s50 = true → truthy s200 = true → s50.getD 0 < s200.getD 0 →
      trendOfSmas s50 s200 = "bearish")
    ∧ ((¬(truthy s50 = true ∧ truthy s200 = true)) ∨ s50.getD 0 = s200.getD 0 →
      trendOfSmas s50 s200 = "neutral") := by
  unfold trendOfSmas
  refine ⟨?_, ?_, ?_⟩
  · intro h1 h2 hlt
    rw [if_pos (by simp [h1, h2]), if_pos hlt]
  · intro h1 h2 hlt
    rw [if_pos (by simp [h1, h2]), if_neg (by linarith), if_pos hlt]
  · intro hor
    rcases hor with hor | heq
    · have hc : ¬((truthy s50 && truthy s200) = true) := by
        simp only [Bool.and_eq_true]
        tauto
      rw [if_neg hc]
    · by_cases hb : (truthy s50 && truthy s200) = true
      · rw [if_pos hb, if_neg (by rw [heq]; exact lt_irrefl _),
          if_neg (by rw [heq]; exact lt_irrefl _)]
      · rw [if_neg hb]

/-- The worked-example analyze call, evaluated once and shared. -/
theorem analyzeE2E : analyze "bitcoin" mE2E tvE2E = Except.ok rE2E := by
  with_unfolding_all decide

/-! ## Claim C3 -/

/-- C3 counterexample: a market snapshot with positive current price 1,
sma50 present and equal to 0 and sma200 equal to 5 has sma50 < sma200,
so the claim demands the trend "bearish"; the code treats the zero sma50
as falsy and returns "neutral". -/
theorem classic_trend_zero_sma_cex :
    mZeroSma.current_price = some 1 ∧ mZeroSma.sma50 = some 0 ∧ mZeroSma.sma200 = some 5
      ∧ (0 : ℚ) < 5
      ∧ trendOf (analyze "coin" mZeroSma tvEmpty) = "neutral"
      ∧ ¬ trendOf (analyze "coin" mZeroSma tvEmpty) = "bearish" := by
  with_unfolding_all decide

/-- C3 amended: for every input with a truthy current price, the returned
trend is "bullish" when both merged moving averages are present and
non-zero with sma50 > sma200, "bearish" when both are present and
non-zero with sma50 < sma200, and "neutral" when either is missing or
zero, or they are equal — regardless of every other field. -/
theorem classic_trend_amended (cid : String) (m : MarketData) (tv : TvData)
    (r : ClassicResult)
    (hcp : truthy (pyOr m.current_price tv.price) = true)
    (h : analyze cid m tv = Except.ok r) :
    (truthy (pyOr m.sma50 tv.sma50) = true → truthy (pyOr m.sma200 tv.sma200) = true →
      (pyOr m.sma200 tv.sma200).getD 0 < (pyOr m.sma50 tv.sma50).getD 0 →
      r.trend = "bullish")
    ∧ (truthy (pyOr m.sma50 tv.sma50) = true → truthy (pyOr m.sma200 tv.sma200) = true →
      (pyOr m.sma50 tv.sma50).getD 0 < (pyOr m.sma200 tv.sma200).getD 0 →
      r.trend = "bearish")
    ∧ ((¬(truthy (pyOr m.sma50 tv.sma50) = true
          ∧ truthy (pyOr m.sma200 tv.sma200) = true))
        ∨ (pyOr m.sma50 tv.sma50).getD 0 = (pyOr m.sma200 tv.sma200).getD 0 →
      r.trend = "neutral") := by
  obtain ⟨r', hr', htrend, -⟩ := analyze_ok_of_truthy cid m tv hcp
  rw [h, Except.ok.injEq] at hr'
  subst hr'
  rw [htrend]
  exact trendOfSmas_spec _ _

/-- C3 amended witness at the worked example: sma50 = 105 > sma200 = 95
gives the bullish trend. -/
theorem classic_trend_amended_w : rE2E.trend = "bullish" :=
  (classic_trend_amended "bitcoin" mE2E tvE2E rE2E (by with_unfolding_all decide)
      analyzeE2E).1
    (by with_unfolding_all decide) (by with_unfolding_all decide)
    (by with_unfolding_all decide)

/-! ## Claim C9 -/

/-- C9: the Classical Engine returns the sentinel (trend "unknown",
empty scenarios) without raising exactly when the merged current price
is unavailable (missing or falsy from both providers); with an available
current price the call returns a populated, non-sentinel result whose
trend is never "unknown". -/
theorem classic_sentinel_iff (cid : String) (m : MarketData) (tv : TvData) :
    (analyze cid m tv = Except.ok (sentinel cid)
        ↔ truthy (pyOr m.current_price tv.price) = false)
    ∧ (truthy (pyOr m.current_price tv.price) = true →
        ∃ r, analyze cid m tv = Except.ok r ∧ r.scenarios.isSome = true
          ∧ ¬ r.trend = "unknown") := by
  constructor
  · constructor
    · intro h
      cases hcp : truthy (pyOr m.current_price tv.price)
      · rfl
      · obtain ⟨r, hr, htrend, hsome⟩ := analyze_ok_of_truthy cid m tv hcp
        rw [h, Except.ok.injEq] at hr
        subst hr
        simp [sentinel] at hsome
    · intro hcp
      simp only [analyze]
      rw [if_pos hcp]
  · intro hcp
    obtain ⟨r, hr, htrend, hsome⟩ := analyze_ok_of_truthy cid m tv hcp
    refine ⟨r, hr, hsome, ?_⟩
    rw [htrend]
    exact trendOfSmas_ne_unknown _ _

/-- C9 witness: with no price anywhere the sentinel is returned. -/
theorem classic_sentinel_iff_w :
    analyze "coin" mNoPrice tvEmpty = Except.ok (sentinel "coin") :=
  (classic_sentinel_iff "coin" mNoPrice tvEmpty).1.mpr (by with_unfolding_all decide)

/-! ## Claim C2 -/

/-- C2 counterexample: at the worked-example snapshot the spot long has
entry 100, stop 92.5 and risk 7.5; the claim demands futures TP1 =
100 + 1.5 x 1 x 7.5 = 111.25, but the code produces 157.875 = 1.5 x
(100 + 1 x 0.7 x 7.5): the whole target price, re-derived from the
tightened stop, is multiplied by 1.5. -/
theorem futures_targets_claim_cex :
    spotLongOf (analyze "bitcoin" mE2E tvE2E)
      = { bias := "bullish", entry := 100, stop_loss := 92.5
          targets := some { tp1 := 107.5, tp2 := 115, tp3 := 122.5 } }
    ∧ tp1Of (futLongOf (analyze "bitcoin" mE2E tvE2E)).targets = 157.875
    ∧ ¬ tp1Of (futLongOf (analyze "bitcoin" mE2E tvE2E)).targets
        = 100 + 1.5 * (1 * |(100 : ℚ) - 92.5|) := by
  with_unfolding_all decide

/-- C2 amended: for every analyze call that returns scenarios, each
futures target TPk equals 1.5 times (spot entry plus, for long, or
minus, for short, k times 0.7 times the spot risk): the futures targets
are re-derived from the tightened futures risk and the resulting target
price is then scaled by 1.5 — not the spot risk-multiple targets with
their risk term scaled. -/
theorem futures_targets_amended (cid : String) (m : MarketData) (tv : TvData)
    (r : ClassicResult) (s : Scenarios)
    (h : analyze cid m tv = Except.ok r) (hs : r.scenarios = some s) :
    s.futures_long.targets = some
      { tp1 := (s.spot_long.entry + 1 * (|s.spot_long.entry - s.spot_long.stop_loss| * 0.7)) * 1.5
        tp2 := (s.spot_long.entry + 2 * (|s.spot_long.entry - s.spot_long.stop_loss| * 0.7)) * 1.5
        tp3 := (s.spot_long.entry + 3 * (|s.spot_long.entry - s.spot_long.stop_loss| * 0.7)) * 1.5 }
    ∧ s.futures_short.targets = some
      { tp1 := (s.spot_short.entry - 1 * (|s.spot_short.entry - s.spot_short.stop_loss| * 0.7)) * 1.5
        tp2 := (s.spot_short.entry - 2 * (|s.spot_short.entry - s.spot_short.stop_loss| * 0.7)) * 1.5
        tp3 := (s.spot_short.entry - 3 * (|s.spot_short.entry - s.spot_short.stop_loss| * 0.7)) * 1.5 } := by
  obtain ⟨hfl, hfs, -, -⟩ := analyze_ok_inv cid m tv r s h hs
  constructor
  · obtain ⟨-, -, -, -, t, ht, h1, h2, h3⟩ := adjust_ok_long _ _ hfl
    rw [ht]
    rcases t with ⟨t1, t2, t3⟩
    simp only at h1 h2 h3
    subst h1 h2 h3
    rfl
  · obtain ⟨-, -, -, -, t, ht, h1, h2, h3⟩ := adjust_ok_short _ _ hfs
    rw [ht]
    rcases t with ⟨t1, t2, t3⟩
    simp only at h1 h2 h3
    subst h1 h2 h3
    rfl

/-- C2 amended witness at the worked example. -/
theorem futures_targets_amended_w :
    sE2E.futures_long.targets = some
      { tp1 := (sE2E.spot_long.entry
          + 1 * (|sE2E.spot_long.entry - sE2E.spot_long.stop_loss| * 0.7)) * 1.5
        tp2 := (sE2E.spot_long.entry
          + 2 * (|sE2E.spot_long.entry - sE2E.spot_long.stop_loss| * 0.7)) * 1.5
        tp3 := (sE2E.spot_long.entry
          + 3 * (|sE2E.spot_long.entry - sE2E.spot_long.stop_loss| * 0.7)) * 1.5 } :=
  (futures_targets_amended "bitcoin" mE2E tvE2E rE2E sE2E analyzeE2E
    (by with_unfolding_all decide)).1

/-! ## Claim C5 -/

/-- C5: for every analyze call that returns scenarios, the futures
scenario keeps the spot entry and its stop distance from the entry is
exactly 0.7 times the spot stop distance, for both directions; whenever
the spot risk is non-zero the futures stop is strictly closer to the
entry. -/
theorem futures_stop_tightening (cid : String) (m : MarketData) (tv : TvData)
    (r : ClassicResult) (s : Scenarios)
    (h : analyze cid m tv = Except.ok r) (hs : r.scenarios = some s) :
    s.futures_long.entry = s.spot_long.entry
    ∧ |s.futures_long.entry - s.futures_long.stop_loss|
        = 0.7 * |s.spot_long.entry - s.spot_long.stop_loss|
    ∧ (¬ |s.spot_long.entry - s.spot_long.stop_loss| = 0 →
        |s.futures_long.entry - s.futures_long.stop_loss|
          < |s.spot_long.entry - s.spot_long.stop_loss|)
    ∧ s.futures_short.entry = s.spot_short.entry
    ∧ |s.futures_short.entry - s.futures_short.stop_loss|
        = 0.7 * |s.spot_short.entry - s.spot_short.stop_loss|
    ∧ (¬ |s.spot_short.entry - s.spot_short.stop_loss| = 0 →
        |s.futures_short.entry - s.futures_short.stop_loss|
          < |s.spot_short.entry - s.spot_short.stop_loss|) := by
  obtain ⟨hfl, hfs, -, -⟩ := analyze_ok_inv cid m tv r s h hs
  obtain ⟨-, hel, hsl, -, -⟩ := adjust_ok_long _ _ hfl
  obtain ⟨-, hes, hss, -, -⟩ := adjust_ok_short _ _ hfs
  have habsl : |s.futures_long.entry - s.futures_long.stop_loss|
      = 0.7 * |s.spot_long.entry - s.spot_long.stop_loss| := by
    rw [hel, hsl, abs_sub_stop_long _ _ (risk07_nonneg _ _)]
    ring
  have habss : |s.futures_short.entry - s.futures_short.stop_loss|
      = 0.7 * |s.spot_short.entry - s.spot_short.stop_loss| := by
    rw [hes, hss, abs_sub_stop_short _ _ (risk07_nonneg _ _)]
    ring
  refine ⟨hel, habsl, ?_, hes, habss, ?_⟩
  · intro hne
    have hpos : 0 < |s.spot_long.entry - s.spot_long.stop_loss| :=
      lt_of_le_of_ne (abs_nonneg _) (Ne.symm hne)
    rw [habsl]
    linarith
  · intro hne
    have hpos : 0 < |s.spot_short.entry - s.spot_short.stop_loss| :=
      lt_of_le_of_ne (abs_nonneg _) (Ne.symm hne)
    rw [habss]
    linarith

/-- C5 witness at the worked example: the futures long stop distance
5.25 is 0.7 times the spot stop distance 7.5. -/
theorem futures_stop_tightening_w :
    |sE2E.futures_long.entry - sE2E.futures_long.stop_loss|
      = 0.7 * |sE2E.spot_long.entry - sE2E.spot_long.stop_loss| :=
  (futures_stop_tightening "bitcoin" mE2E tvE2E rE2E sE2E analyzeE2E
    (by with_unfolding_all decide)).2.1

/-! ## Claim C6 -/

/-- C6: for every analyze call that returns scenarios, whenever a
scenario's targets are present they are strictly monotone in the trade's
direction: rising for the long scenarios (spot and futures alike),
falling for the short ones. -/
theorem classic_targets_monotone (cid : String) (m : MarketData) (tv : TvData)
    (r : ClassicResult) (s : Scenarios)
    (h : analyze cid m tv = Except.ok r) (hs : r.scenarios = some s) :
    targetsAscending s.spot_long.targets = true
    ∧ targetsDescending s.spot_short.targets = true
    ∧ targetsAscending s.futures_long.targets = true
    ∧ targetsDescending s.futures_short.targets = true := by
  obtain ⟨hfl, hfs, htl, hts⟩ := analyze_ok_inv cid m tv r s h hs
  refine ⟨?_, ?_, ?_, ?_⟩
  · rw [htl]
    cases hc : calc_targets_from_r s.spot_long.entry s.spot_long.stop_loss true with
    | none => rfl
    | some t =>
      obtain ⟨hpos, h1, h2, h3⟩ := calc_targets_some_long _ _ _ hc
      simp only [targetsAscending, Bool.and_eq_true, decide_eq_true_eq]
      constructor
      · rw [h1, h2]; linarith
      · rw [h2, h3]; linarith
  · rw [hts]
    cases hc : calc_targets_from_r s.spot_short.entry s.spot_short.stop_loss false with
    | none => rfl
    | some t =>
      obtain ⟨hpos, h1, h2, h3⟩ := calc_targets_some_short _ _ _ hc
      simp only [targetsDescending, Bool.and_eq_true, decide_eq_true_eq]
      constructor
      · rw [h1, h2]; linarith
      · rw [h2, h3]; linarith
  · obtain ⟨-, -, -, hpos, t, ht, h1, h2, h3⟩ := adjust_ok_long _ _ hfl
    rw [ht]
    simp only [targetsAscending, Bool.and_eq_true, decide_eq_true_eq]
    constructor
    · rw [h1, h2]; nlinarith
    · rw [h2, h3]; nlinarith
  · obtain ⟨-, -, -, hpos, t, ht, h1, h2, h3⟩ := adjust_ok_short _ _ hfs
    rw [ht]
    simp only [targetsDescending, Bool.and_eq_true, decide_eq_true_eq]
    constructor
    · rw [h1, h2]; nlinarith
    · rw [h2, h3]; nlinarith

/-- C6 witness at the worked example: all four target sets are strictly
monotone in their trade's direction. -/
theorem classic_targets_monotone_w :
    targetsAscending sE2E.spot_long.targets = true
    ∧ targetsDescending sE2E.spot_short.targets = true
    ∧ targetsAscending sE2E.futures_long.targets = true
    ∧ targetsDescending sE2E.futures_short.targets = true :=
  classic_targets_monotone "bitcoin" mE2E tvE2E rE2E sE2E analyzeE2E
    (by with_unfolding_all decide)

/-! ## SMC helper lemmas -/

theorem analyzeCore_action (cfg : SMCConfig) (ohlc : List Candle) :
    (analyzeCore cfg ohlc).action
      = actionOf (analyzeCore cfg ohlc).confidence (analyzeCore cfg ohlc).bias
          (analyzeCore cfg ohlc).hasChochBull (analyzeCore cfg ohlc).hasChochBear := rfl

theorem analyzeCore_bias (cfg : SMCConfig) (ohlc : List Candle) :
    (analyzeCore cfg ohlc).bias = biasOf (detect_swings cfg.swing_length ohlc) := rfl

theorem analyzeCore_conf (cfg : SMCConfig) (ohlc : List Candle) :
    (analyzeCore cfg ohlc).confidence
      = max 0 (min 1 (analyzeCore cfg ohlc).score_raw) := rfl

theorem biasOf_cases (swings : List SwingRec) :
    biasOf swings = "bull" ∨ biasOf swings = "bear" ∨ biasOf swings = "neutral" := by
  simp only [biasOf]
  split_ifs <;> tauto

theorem actionOf_spec (c : ℚ) (b : String) (cb cbr : Bool)
    (hb : b = "bull" ∨ b = "bear" ∨ b = "neutral") :
    ((0.62 : ℚ) ≤ c →
      ((b = "bear" ∧ cb = false) → actionOf c b cb cbr = "sell")
      ∧ (¬(b = "bear" ∧ cb = false) → actionOf c b cb cbr = "buy"))
    ∧ (c ≤ (0.38 : ℚ) →
      ((b = "bull" ∧ cbr = false) → actionOf c b cb cbr = "buy")
      ∧ (¬(b = "bull" ∧ cbr = false) → actionOf c b cb cbr = "sell"))
    ∧ ((0.38 : ℚ) < c → c < (0.62 : ℚ) → actionOf c b cb cbr = "hold") := by
  unfold actionOf
  refine ⟨?_, ?_, ?_⟩
  · intro hc
    rw [if_pos hc]
    constructor
    · rintro ⟨hbear, hcb⟩
      rw [if_neg]
      simp [hbear, hcb]
    · intro hnot
      rw [if_pos]
      rcases hb with hb | hb | hb
      · exact Or.inl hb
      · cases hcb : cb
        · exact absurd ⟨hb, hcb⟩ hnot
        · exact Or.inr (Or.inr (by simp [hcb]))
      · exact Or.inr (Or.inl hb)
  · intro hc
    rw [if_neg (by intro hle; linarith), if_pos hc]
    constructor
    · rintro ⟨hbull, hcbr⟩
      rw [if_neg]
      simp [hbull, hcbr]
    · intro hnot
      rw [if_pos]
      rcases hb with hb | hb | hb
      · cases hcbr : cbr
        · exact absurd ⟨hb, hcbr⟩ hnot
        · exact Or.inr (Or.inr (by simp [hcbr]))
      · exact Or.inl hb
      · exact Or.inr (Or.inl hb)
  · intro h1 h2
    rw [if_neg (by intro hle; linarith), if_neg (by intro hle; linarith)]

/-! ## Claim C1 -/

/-- C1: on a flat two-candle series (shorter than any viable length)
every detector returns an empty frame, the bias is neutral, the raw
confidence is exactly 0.5 so the computed action is "hold" and entry,
stop and targets stay empty — but the final Decision construction
executes round(None, 3), so the call raises TypeError (the error case)
instead of returning the hold decision. Every hold action takes this
path: the claim (and the spec's no-exception guarantee) is right about
the intent and the code is wrong. -/
theorem smc_hold_raises :
    detect_swings 10 flat2 = []
    ∧ detect_fvg flat2 = []
    ∧ detect_bos_choch flat2 (detect_swings 10 flat2) = []
    ∧ detect_liquidity_clusters defaultCfg (detect_swings 10 flat2) (some 0.01) = []
    ∧ (analyzeCore defaultCfg flat2).bias = "neutral"
    ∧ (analyzeCore defaultCfg flat2).confidence = 0.5
    ∧ (analyzeCore defaultCfg flat2).action = "hold"
    ∧ (analyzeCore defaultCfg flat2).entry = none
    ∧ (analyzeCore defaultCfg flat2).stop = none
    ∧ (analyzeCore defaultCfg flat2).targets = []
    ∧ analyze_trade defaultCfg flat2 = Except.error () := by
  with_unfolding_all decide

/-! ## Claim C4 -/

/-- C4: for every analyzed series, when the clamped confidence is at
least 0.62 the action is "buy" unless the bias is strictly bear with no
recent CHOCH_bull, in which case it is "sell"; when the confidence is at
most 0.38 the action is "sell" under the mirrored rule; strictly between
the thresholds the action is "hold". -/
theorem smc_action_thresholds (cfg : SMCConfig) (ohlc : List Candle) (h : ¬ ohlc = []) :
    ((0.62 : ℚ) ≤ (analyzeCore cfg ohlc).confidence →
      (((analyzeCore cfg ohlc).bias = "bear" ∧ (analyzeCore cfg ohlc).hasChochBull = false) →
        (analyzeCore cfg ohlc).action = "sell")
      ∧ (¬((analyzeCore cfg ohlc).bias = "bear"
            ∧ (analyzeCore cfg ohlc).hasChochBull = false) →
        (analyzeCore cfg ohlc).action = "buy"))
    ∧ ((analyzeCore cfg ohlc).confidence ≤ (0.38 : ℚ) →
      (((analyzeCore cfg ohlc).bias = "bull" ∧ (analyzeCore cfg ohlc).hasChochBear = false) →
        (analyzeCore cfg ohlc).action = "buy")
      ∧ (¬((analyzeCore cfg ohlc).bias = "bull"
            ∧ (analyzeCore cfg ohlc).hasChochBear = false) →
        (analyzeCore cfg ohlc).action = "sell"))
    ∧ ((0.38 : ℚ) < (analyzeCore cfg ohlc).confidence →
        (analyzeCore cfg ohlc).confidence < (0.62 : ℚ) →
        (analyzeCore cfg ohlc).action = "hold") := by
  rw [analyzeCore_action cfg ohlc]
  refine actionOf_spec _ _ _ _ ?_
  rw [analyzeCore_bias cfg ohlc]
  exact biasOf_cases _

/-- C4 witness: the rising zigzag has confidence 0.82 and bull bias, so
the buy branch of the threshold rule fires. -/
theorem smc_action_thresholds_w : (analyzeCore cfg1 zig9).action = "buy" :=
  ((smc_action_thresholds cfg1 zig9 (by with_unfolding_all decide)).1
      (by with_unfolding_all decide)).2
    (by with_unfolding_all decide)

/-! ## Claim C7 -/

/-- C7: every Decision actually returned by analyze_trade carries the
raw accumulated score clamped to the unit interval: its confidence
equals max(0, min(1, score_raw)), hence always lies in the interval
even when the raw score leaves it, and a raw score above 1 is reported
as exactly 1. -/
theorem smc_confidence_clamped (cfg : SMCConfig) (ohlc : List Candle) (d : Decision)
    (h : analyze_trade cfg ohlc = Except.ok d) :
    d.confidence = max 0 (min 1 (analyzeCore cfg ohlc).score_raw)
    ∧ 0 ≤ d.confidence ∧ d.confidence ≤ 1
    ∧ (1 < (analyzeCore cfg ohlc).score_raw → d.confidence = 1) := by
  have hdc : d.confidence = (analyzeCore cfg ohlc).confidence := by
    simp only [analyze_trade] at h
    split at h
    · exact absurd h (by simp)
    · split at h
      · simp only [Except.ok.injEq] at h
        subst h
        rfl
      · exact absurd h (by simp)
  rw [hdc, analyzeCore_conf]
  refine ⟨rfl, le_max_left 0 _, ?_, ?_⟩
  · exact max_le (by norm_num) (min_le_left 1 _)
  · intro hgt
    rw [min_eq_left (le_of_lt hgt)]
    exact max_eq_right (by norm_num)

/-- C7 witness: the gap series returns a buy decision whose confidence
0.62 satisfies the clamp equalities. -/
theorem smc_confidence_clamped_w :
    dGap.confidence = max 0 (min 1 (analyzeCore defaultCfg gap4).score_raw)
    ∧ 0 ≤ dGap.confidence ∧ dGap.confidence ≤ 1
    ∧ (1 < (analyzeCore defaultCfg gap4).score_raw → dGap.confidence = 1) :=
  smc_confidence_clamped defaultCfg gap4 dGap (by with_unfolding_all decide)

/-! ## Claim C8 -/

theorem mem_ite_nil {α : Type} (c : Prop) [Decidable c] (l : List α) (x : α) :
    x ∈ (if c then l else []) ↔ c ∧ x ∈ l := by
  split
  · rename_i hc
    simp [hc]
  · rename_i hc
    simp [hc]

/-- C8: detect_swings marks index i as a swing high with price p exactly
when i is at least L from both series boundaries (L ≤ i and i + L < n)
and high[i] equals the maximum of the highs over the closed window
[i-L, i+L]; symmetrically for swing lows over the window minimum of the
lows. In particular no swing of either type is ever recorded at an index
within L of either boundary, and the recorded price is the bar's own
high (resp. low). -/
theorem smc_swing_characterization (L : ℕ) (ohlc : List Candle) (i : ℕ) :
    ((∃ p, SwingRec.mk i "high" p ∈ detect_swings L ohlc)
        ↔ L ≤ i ∧ i + L < ohlc.length
          ∧ (ohlc.map (·.high)).getD i 0 = windowHigh (ohlc.map (·.high)) L i)
    ∧ ((∃ p, SwingRec.mk i "low" p ∈ detect_swings L ohlc)
        ↔ L ≤ i ∧ i + L < ohlc.length
          ∧ (ohlc.map (·.low)).getD i 0 = windowLow (ohlc.map (·.low)) L i)
    ∧ (∀ t p, SwingRec.mk i t p ∈ detect_swings L ohlc → L ≤ i ∧ i + L < ohlc.length)
    ∧ (∀ p, SwingRec.mk i "high" p ∈ detect_swings L ohlc →
        p = (ohlc.map (·.high)).getD i 0)
    ∧ (∀ p, SwingRec.mk i "low" p ∈ detect_swings L ohlc →
        p = (ohlc.map (·.low)).getD i 0) := by
  have hmem : ∀ t p, SwingRec.mk i t p ∈ detect_swings L ohlc →
      i < ohlc.length ∧ (L ≤ i ∧ i + L < ohlc.length)
        ∧ ((t = "high" ∧ p = (ohlc.map (·.high)).getD i 0
              ∧ (ohlc.map (·.high)).getD i 0 = windowHigh (ohlc.map (·.high)) L i)
            ∨ (t = "low" ∧ p = (ohlc.map (·.low)).getD i 0
              ∧ (ohlc.map (·.low)).getD i 0 = windowLow (ohlc.map (·.low)) L i)) := by
    intro t p hp
    simp only [detect_swings, List.mem_flatMap] at hp
    obtain ⟨a, ha, hx⟩ := hp
    rw [List.mem_range] at ha
    by_cases hcond : L ≤ a ∧ a + L < ohlc.length
    · rw [if_pos hcond, List.mem_append, mem_ite_nil, mem_ite_nil] at hx
      rcases hx with ⟨hhi, hx⟩ | ⟨hlo, hx⟩
      · rw [List.mem_singleton, SwingRec.mk.injEq] at hx
        obtain ⟨hia, hts, hps⟩ := hx
        subst hia
        exact ⟨ha, hcond, Or.inl ⟨hts, hps, hhi⟩⟩
      · rw [List.mem_singleton, SwingRec.mk.injEq] at hx
        obtain ⟨hia, hts, hps⟩ := hx
        subst hia
        exact ⟨ha, hcond, Or.inr ⟨hts, hps, hlo⟩⟩
    · rw [if_neg hcond] at hx
      simp at hx
  refine ⟨⟨?_, ?_⟩, ⟨?_, ?_⟩, ?_, ?_, ?_⟩
  · rintro ⟨p, hp⟩
    obtain ⟨-, hcond, hca⟩ := hmem _ _ hp
    rcases hca with ⟨-, -, hw⟩ | ⟨hts, -, -⟩
    · exact ⟨hcond.1, hcond.2, hw⟩
    · exact absurd hts (by decide)
  · rintro ⟨h1, h2, h3⟩
    refine ⟨(ohlc.map (·.high)).getD i 0, ?_⟩
    simp only [detect_swings, List.mem_flatMap]
    refine ⟨i, List.mem_range.mpr (by omega), ?_⟩
    rw [if_pos ⟨h1, h2⟩, List.mem_append, mem_ite_nil]
    exact Or.inl ⟨h3, by simp⟩
  · rintro ⟨p, hp⟩
    obtain ⟨-, hcond, hca⟩ := hmem _ _ hp
    rcases hca with ⟨hts, -, -⟩ | ⟨-, -, hw⟩
    · exact absurd hts (by decide)
    · exact ⟨hcond.1, hcond.2, hw⟩
  · rintro ⟨h1, h2, h3⟩
    refine ⟨(ohlc.map (·.low)).getD i 0, ?_⟩
    simp only [detect_swings, List.mem_flatMap]
    refine ⟨i, List.mem_range.mpr (by omega), ?_⟩
    rw [if_pos ⟨h1, h2⟩, List.mem_append, mem_ite_nil, mem_ite_nil]
    exact Or.inr ⟨h3, by simp⟩
  · intro t p hp
    exact (hmem t p hp).2.1
  · intro p hp
    rcases (hmem _ p hp).2.2 with ⟨-, hps, -⟩ | ⟨hts, -, -⟩
    · exact hps
    · exact absurd hts (by decide)
  · intro p hp
    rcases (hmem _ p hp).2.2 with ⟨hts, -, -⟩ | ⟨-, hps, -⟩
    · exact absurd hts (by decide)
    · exact hps

/-- C8 witness: in the zigzag series index 2 carries a swing high, and
the characterization yields the window condition at that index. -/
theorem smc_swing_characterization_w :
    1 ≤ 2 ∧ 2 + 1 < zig9.length
      ∧ (zig9.map (·.high)).getD 2 0 = windowHigh (zig9.map (·.high)) 1 2 :=
  (smc_swing_characterization 1 zig9 2).1.mp ⟨16, by with_unfolding_all decide⟩

/-! ## Claim C10: clustering lemmas -/

theorem clusterStep_used_mono (prices : List ℚ) (rp : ℚ) (st : List ℕ × List (List ℕ))
    (i : ℕ) : ∀ k ∈ st.1, k ∈ (clusterStep prices rp st i).1 := by
  intro k hk
  unfold clusterStep
  split
  · exact hk
  · exact List.mem_append_left _ hk

theorem clusterStep_mem_self (prices : List ℚ) (rp : ℚ) (st : List ℕ × List (List ℕ))
    (i : ℕ) : i ∈ (clusterStep prices rp st i).1 := by
  unfold clusterStep
  split
  · assumption
  · exact List.mem_append_right _ (List.mem_cons_self _ _)

theorem clusterStep_inv (prices : List ℚ) (rp : ℚ) (st : List ℕ × List (List ℕ))
    (i : ℕ) (hi : i < prices.length) (h : ClusterInv prices.length st) :
    ClusterInv prices.length (clusterStep prices rp st i) := by
  obtain ⟨hflat, hnd, hlt⟩ := h
  unfold clusterStep
  split
  · exact ⟨hflat, hnd, hlt⟩
  · rename_i hni
    have hgather : ∀ j ∈ (List.range prices.length).filter
        (fun j => i < j ∧ j ∉ st.1
          ∧ |prices.getD j 0 - prices.getD i 0| / prices.getD i 0 ≤ rp),
        i < j ∧ j ∉ st.1 ∧ j < prices.length := by
      intro j hj
      have h1 := List.mem_filter.mp hj
      have h2 := List.mem_range.mp h1.1
      have h3 := of_decide_eq_true h1.2
      exact ⟨h3.1, h3.2.1, h2⟩
    refine ⟨?_, ?_, ?_⟩
    · simp only [hflat, List.flatten_append, List.flatten_cons, List.flatten_nil,
        List.append_nil]
    · refine List.Nodup.append hnd ?_ ?_
      · refine List.Nodup.cons ?_ (List.Nodup.filter _ (List.nodup_range _))
        intro hc
        exact absurd rfl (Nat.ne_of_lt (hgather i hc).1)
      · intro k hk hkmem
        rcases List.mem_cons.mp hkmem with rfl | hkf
        · exact hni hk
        · exact (hgather k hkf).2.1 hk
    · intro k hk
      rcases List.mem_append.mp hk with hk | hk
      · exact hlt k hk
      · rcases List.mem_cons.mp hk with rfl | hkf
        · exact hi
        · exact (hgather k hkf).2.2

theorem clusterFold_inv (prices : List ℚ) (rp : ℚ) :
    ∀ (l : List ℕ) (st : List ℕ × List (List ℕ)),
      (∀ i ∈ l, i < prices.length) → ClusterInv prices.length st →
      ClusterInv prices.length (l.foldl (clusterStep prices rp) st) := by
  intro l
  induction l with
  | nil => exact fun st _ h => h
  | cons a l ih =>
    intro st hl h
    rw [List.foldl_cons]
    exact ih _ (fun i hi => hl i (List.mem_cons_of_mem _ hi))
      (clusterStep_inv prices rp st a (hl a (List.mem_cons_self _ _)) h)

theorem clusterFold_used_mono (prices : List ℚ) (rp : ℚ) :
    ∀ (l : List ℕ) (st : List ℕ × List (List ℕ)) (k : ℕ),
      k ∈ st.1 → k ∈ (l.foldl (clusterStep prices rp) st).1 := by
  intro l
  induction l with
  | nil => exact fun st k hk => hk
  | cons a l ih =>
    intro st k hk
    rw [List.foldl_cons]
    exact ih _ k (clusterStep_used_mono prices rp st a k hk)

theorem clusterFold_covers (prices : List ℚ) (rp : ℚ) :
    ∀ (l : List ℕ) (st : List ℕ × List (List ℕ)) (i : ℕ),
      i ∈ l → i ∈ (l.foldl (clusterStep prices rp) st).1 := by
  intro l
  induction l with
  | nil => exact fun st i hi => absurd hi (List.not_mem_nil _)
  | cons a l ih =>
    intro st i hi
    rw [List.foldl_cons]
    rcases List.mem_cons.mp hi with rfl | hi
    · exact clusterFold_used_mono prices rp l _ i (clusterStep_mem_self prices rp st i)
    · exact ih _ i hi

theorem clusterMembersList_partition (prices : List ℚ) (rp : ℚ) :
    (clusterMembersList prices rp).flatten.Nodup
    ∧ ∀ k, k ∈ (clusterMembersList prices rp).flatten ↔ k < prices.length := by
  have hfin := clusterFold_inv prices rp (List.range prices.length) ([], [])
    (fun i hi => List.mem_range.mp hi) ⟨rfl, List.nodup_nil, by simp⟩
  obtain ⟨hflat, hnd, hlt⟩ := hfin
  unfold clusterMembersList
  constructor
  · rw [← hflat]
    exact hnd
  · intro k
    constructor
    · intro hk
      exact hlt k (hflat ▸ hk)
    · intro hk
      have := clusterFold_covers prices rp (List.range prices.length) ([], []) k
        (List.mem_range.mpr hk)
      exact hflat ▸ this

theorem clusterMembersList_sizes (prices : List ℚ) (rp : ℚ) :
    ((clusterMembersList prices rp).map List.length).sum = prices.length := by
  obtain ⟨hnd, hmem⟩ := clusterMembersList_partition prices rp
  have hperm : (clusterMembersList prices rp).flatten.Perm (List.range prices.length) :=
    (List.perm_ext_iff_of_nodup hnd (List.nodup_range _)).mpr
      (fun a => by rw [hmem a, List.mem_range])
  have hlen := hperm.length_eq
  rw [List.length_flatten, List.length_range] at hlen
  exact hlen

theorem mkCluster_members (s : List SwingRec) (mem : List ℕ) :
    (mkCluster s mem).members = mem := rfl

theorem mkCluster_size (s : List SwingRec) (mem : List ℕ) :
    (mkCluster s mem).size = mem.length := by
  simp [mkCluster]

theorem mkCluster_mean (s : List SwingRec) (mem : List ℕ) :
    (mkCluster s mem).mean_price
      = (mem.map (fun k => (s.getD k dfltSwing).price)).sum / (mem.length : ℚ) := by
  simp only [mkCluster, List.map_map, List.length_map]
  rfl

theorem mkCluster_members_idx (s : List SwingRec) (mem : List ℕ) :
    (mkCluster s mem).members_idx = mem.map (fun k => (s.getD k dfltSwing).idx) := by
  simp [mkCluster, List.map_map, Function.comp]

theorem mkCluster_types (s : List SwingRec) (mem : List ℕ) :
    (mkCluster s mem).types = mem.map (fun k => (s.getD k dfltSwing).type) := by
  simp [mkCluster, List.map_map, Function.comp]

/-- C10: for every non-empty swings input (with the data model's
positive prices, under which the Python division is defined),
detect_liquidity_clusters partitions the swing rows: every position into
the swings list appears in exactly one cluster's member list, the
cluster sizes sum to the number of swings, and each cluster's columns
are the projections of its members — in particular mean_price is the
arithmetic mean of the members' prices. -/
theorem liq_clusters_partition (cfg : SMCConfig) (swings : List SwingRec)
    (rparg : Option ℚ) (hne : ¬ swings = [])
    (hpos : ∀ s ∈ swings, 0 < s.price) :
    (∀ k, k < swings.length →
      ((detect_liquidity_clusters cfg swings rparg).map (·.members)).flatten.count k = 1)
    ∧ ((detect_liquidity_clusters cfg swings rparg).map (·.size)).sum = swings.length
    ∧ (∀ c ∈ detect_liquidity_clusters cfg swings rparg,
        c.size = c.members.length
        ∧ c.mean_price
            = (c.members.map (fun k => (swings.getD k dfltSwing).price)).sum
                / (c.members.length : ℚ)
        ∧ c.members_idx = c.members.map (fun k => (swings.getD k dfltSwing).idx)
        ∧ c.types = c.members.map (fun k => (swings.getD k dfltSwing).type)) := by
  simp only [detect_liquidity_clusters, if_neg hne]
  have hlenp : (swings.map (·.price)).length = swings.length := List.length_map _ _
  set rp := rparg.getD cfg.liq_range_pct with hrp
  set mems := clusterMembersList (swings.map (·.price)) rp with hmems
  have hperm :
      ((mems.map (mkCluster swings)).mergeSort (fun a b => b.size ≤ a.size)).Perm
        (mems.map (mkCluster swings)) := List.mergeSort_perm _ _
  have hmapmem : (mems.map (mkCluster swings)).map (·.members) = mems := by
    rw [List.map_map]
    have : ((fun c : LiqCluster => c.members) ∘ mkCluster swings) = id :=
      funext fun mem => rfl
    rw [this, List.map_id]
  refine ⟨?_, ?_, ?_⟩
  · intro k hk
    have hp2 : (((mems.map (mkCluster swings)).mergeSort
          (fun a b => b.size ≤ a.size)).map (·.members)).flatten.Perm
        mems.flatten := by
      have := (hperm.map (·.members)).flatten
      rw [hmapmem] at this
      exact this
    rw [hp2.count_eq]
    obtain ⟨hnd, hmem⟩ := clusterMembersList_partition (swings.map (·.price)) rp
    exact List.count_eq_one_of_mem hnd ((hmem k).mpr (by rw [hlenp]; exact hk))
  · have hp2 : (((mems.map (mkCluster swings)).mergeSort
          (fun a b => b.size ≤ a.size)).map (·.size)).Perm
        ((mems.map (mkCluster swings)).map (·.size)) := hperm.map _
    rw [hp2.sum_eq, List.map_map]
    have : ((fun c : LiqCluster => c.size) ∘ mkCluster swings) = List.length :=
      funext fun mem => mkCluster_size swings mem
    rw [this]
    have hs := clusterMembersList_sizes (swings.map (·.price)) rp
    rw [hlenp] at hs
    rw [← hmems] at hs
    exact hs
  · intro c hc
    have hc2 : c ∈ mems.map (mkCluster swings) := hperm.subset hc
    obtain ⟨mem, -, hcm⟩ := List.mem_map.mp hc2
    subst hcm
    rw [mkCluster_members, mkCluster_size, mkCluster_mean, mkCluster_members_idx,
      mkCluster_types]
    exact ⟨rfl, rfl, rfl, rfl⟩

/-- C10 witness: the three-swing list splits into a two-member cluster
and a singleton, with sizes summing to three. -/
theorem liq_clusters_partition_w :
    ((detect_liquidity_clusters defaultCfg swings3 (some 0.01)).map (·.size)).sum
      = swings3.length :=
  (liq_clusters_partition defaultCfg swings3 (some 0.01) (by with_unfolding_all decide)
    (by with_unfolding_all decide)).2.1

end EasyCrypto
